import Mathlib

/-!
Shallow embedding of `DemkAaZa_PublicBot.py`, a Telegram bot that tracks
Solana wallet activity for many independent users.

Modelling conventions:
* Python `dict`s are insertion-ordered association lists (`List (key × value)`);
  assignment to an existing key keeps its position, assignment to a fresh key
  appends at the end, `del` removes the entry and keeps the order of the rest.
* `datetime.now().isoformat()` is abstracted as an opaque `now : String`
  parameter of each operation; the code only stores these strings, it never
  branches on them.
* `json.dump` persistence (`save_data`) is modelled by copying the live state
  into `disk_users` / `disk_cache` shadow fields.
* The local-time rendering `datetime.fromtimestamp(ts).strftime("%H:%M:%S")`
  and the float rendering `f"{amount:.4f}"` are abstracted as parameters
  `tr : Nat → String` and `ar : Nat → String` of the formatting function;
  nothing else in the program depends on those strings.
* Network and Telegram delivery are external: the Helius response is a
  `FetchOutcome` / a `fetch : String → List Tx` oracle, and Telegram's
  `send_message` is a `send` oracle returning `SendRes` (`ok` or an exception
  whose message string the except-clause inspects).
* CPython raises `RuntimeError: dictionary changed size during iteration`
  when a dict gains or loses a key while a `for` loop iterates over it; in
  `auto_monitor` the only structural mutation is `del db.users[user_id_str]`,
  so the monitor model stops with an `Ev.runtimeError` event right after a
  user step that deleted a user.
-/

/-- Characterwise `s[:n]` (Python slice). -/
def strTake (n : Nat) (s : String) : String := ⟨s.data.take n⟩

/-- Characterwise `str.lower()` (ASCII range, which covers every string the
program compares). -/
def strLower (s : String) : String := ⟨s.data.map Char.toLower⟩

/-- Python substring test `pat in s`. -/
def strIn (pat s : String) : Bool :=
  (List.range (s.data.length + 1)).any fun i =>
    (s.data.drop i).take pat.data.length == pat.data

/-- Python `str.replace("_", " ")` (single-character pattern, hence a map). -/
def replaceUnderscore (s : String) : String :=
  ⟨s.data.map fun c => if c = '_' then ' ' else c⟩

/-- Python `str.title()`: a cased character is uppercased when the previous
character is not cased, lowercased otherwise (ASCII approximation). -/
def pyTitle (s : String) : String :=
  ⟨(s.data.foldl
      (fun st c =>
        if c.isAlpha then (true, st.2 ++ [if st.1 then c.toLower else c.toUpper])
        else (false, st.2 ++ [c]))
      ((false : Bool), ([] : List Char))).2⟩

/-- Python whitespace test used by `str.strip()`. -/
def isPySpace (c : Char) : Bool := c = ' ' || c = '\t' || c = '\n' || c = '\r'

/-- Python `str.strip()`. -/
def pyStrip (s : String) : String :=
  ⟨((s.data.dropWhile isPySpace).reverse.dropWhile isPySpace).reverse⟩

/-- Whether `int(s)` succeeds, for the nonnegative-decimal ids Telegram uses
(`auto_monitor` runs `user_id = int(user_id_str)` inside its per-user try). -/
def pyIntOk (s : String) : Bool := !s.data.isEmpty && s.data.all Char.isDigit

/-- Dict lookup on an insertion-ordered association list. -/
def alookup {α : Type} (k : String) : List (String × α) → Option α
  | [] => none
  | (a, v) :: rest => if a = k then some v else alookup k rest

/-- Dict membership `k in d`. -/
def hasKey {α : Type} (l : List (String × α)) (k : String) : Bool :=
  (alookup k l).isSome

/-- Dict assignment `d[k] = v`: replaces in place, or appends a fresh key. -/
def setUser {α : Type} : List (String × α) → String → α → List (String × α)
  | [], k, v => [(k, v)]
  | (a, w) :: rest, k, v =>
    if a = k then (k, v) :: rest else (a, w) :: setUser rest k v

/-- Dict deletion `del d[k]` (keys are unique in a real dict, so removing the
first occurrence is exact). -/
def eraseKey {α : Type} (k : String) : List (String × α) → List (String × α)
  | [] => []
  | (a, w) :: rest => if a = k then rest else (a, w) :: eraseKey k rest

/-- One tracked wallet: the value stored at `user["wallets"][address]`. -/
structure Wallet where
  name : String
  added : String
  last_tx : Option String
  tx_count : Nat
deriving DecidableEq, Repr

/-- One user record: the value stored at `db.users[user_id]`. -/
structure UserData where
  wallets : List (String × Wallet)
  created : String
  alert_count : Nat
deriving DecidableEq, Repr

/-- The whole `WalletDatabase`: live dicts plus the json files last written by
`save_data` (the durability shadow). -/
structure WalletDatabase where
  users : List (String × UserData)
  tx_cache : List (String × String)
  disk_users : List (String × UserData)
  disk_cache : List (String × String)
deriving DecidableEq, Repr

/-- `WalletDatabase.save_data`: flush both dicts to their json files. -/
def save_data (db : WalletDatabase) : WalletDatabase :=
  { db with disk_users := db.users, disk_cache := db.tx_cache }

/-- `WalletDatabase.get_user`: return the existing record or create (and
persist) an empty one. -/
def get_user (db : WalletDatabase) (user_id now : String) :
    UserData × WalletDatabase :=
  match alookup user_id db.users with
  | some u => (u, db)
  | none =>
    let u : UserData := { wallets := [], created := now, alert_count := 0 }
    (u, save_data { db with users := db.users ++ [(user_id, u)] })

/-- `WalletDatabase.add_wallet`: quota check, duplicate check, then insert
with the display name truncated to 20 characters, and persist. -/
def add_wallet (db : WalletDatabase) (user_id address name now : String) :
    (Bool × String) × WalletDatabase :=
  let p := get_user db user_id now
  let user := p.1
  let db1 := p.2
  if 10 ≤ user.wallets.length then
    ((false, "❌ Maximum 10 wallets reached"), db1)
  else if (alookup address user.wallets).isSome then
    ((false, "❌ This wallet is already tracked"), db1)
  else
    let w : Wallet := { name := strTake 20 name, added := now, last_tx := none, tx_count := 0 }
    let user' := { user with wallets := user.wallets ++ [(address, w)] }
    ((true, "✅ *" ++ name ++ "* is now being tracked!"),
     save_data { db1 with users := setUser db1.users user_id user' })

/-- Name search of `remove_wallet`: first wallet whose display name equals the
identifier case-insensitively, in dict iteration order. -/
def findNameMatch (identifier : String) :
    List (String × Wallet) → Option (String × Wallet)
  | [] => none
  | (a, w) :: rest =>
    if strLower w.name = strLower identifier then some (a, w)
    else findNameMatch identifier rest

/-- `WalletDatabase.remove_wallet`: exact address match first, then
case-insensitive display-name match, else failure; successes persist. -/
def remove_wallet (db : WalletDatabase) (user_id identifier now : String) :
    (Bool × String) × WalletDatabase :=
  let p := get_user db user_id now
  let user := p.1
  let db1 := p.2
  match alookup identifier user.wallets with
  | some w =>
    let user' := { user with wallets := eraseKey identifier user.wallets }
    ((true, "✅ Removed *" ++ w.name ++ "*"),
     save_data { db1 with users := setUser db1.users user_id user' })
  | none =>
    match findNameMatch identifier user.wallets with
    | some aw =>
      let user' := { user with wallets := eraseKey aw.1 user.wallets }
      ((true, "✅ Removed *" ++ aw.2.name ++ "*"),
       save_data { db1 with users := setUser db1.users user_id user' })
    | none => ((false, "❌ Wallet not found"), db1)

/-- One Helius activity record, with the fields the program reads:
`signature`, `type`, `timestamp`, and the `amount`s of `nativeTransfers`. -/
structure Tx where
  signature : Option String
  type : Option String
  timestamp : Option Nat
  nativeTransfers : List Nat
deriving DecidableEq, Repr

/-- The network outcome of one `aiohttp` GET in `fetch_transactions`. -/
inductive FetchOutcome where
  | success : Nat → List Tx → FetchOutcome
  | excRaised : String → FetchOutcome
deriving DecidableEq, Repr

/-- `fetch_transactions`: the body on a 200 response, the empty list (with an
`API Error` log line only for a raised exception) otherwise; it never raises. -/
def fetch_transactions (o : FetchOutcome) : List Tx × List String :=
  match o with
  | FetchOutcome.success status body => if status = 200 then (body, []) else ([], [])
  | FetchOutcome.excRaised e => ([], ["API Error: " ++ e])

/-- Classifies an outcome the claim calls a failed fetch: a raised exception
(network error, timeout) or a non-200 response. -/
def fetchFails : FetchOutcome → Bool
  | FetchOutcome.success status _ => status ≠ 200
  | FetchOutcome.excRaised _ => true

/-- The dedup cache key `f"{user_id}_{address}_{tx_id}"`. -/
def cacheKey (user_id address tx_id : String) : String :=
  user_id ++ "_" ++ address ++ "_" ++ tx_id

/-- The signature a scan iteration acts on: `tx.get("signature")` followed by
the falsy guard `if not tx_id: continue`. -/
def sigOf (tx : Tx) : Option String :=
  match tx.signature with
  | none => none
  | some s => if s = "" then none else some s

/-- One pending alert tuple `(tx, wallet_name, address)`. -/
structure Alert where
  tx : Tx
  name : String
  addr : String
deriving DecidableEq, Repr

/-- State threaded by the transaction scan of one wallet: the shared dedup
cache, the wallet record, the user's alert counter, the pending alerts. -/
structure ScanSt where
  cache : List (String × String)
  w : Wallet
  ac : Nat
  alerts : List Alert
deriving DecidableEq, Repr

/-- One iteration of the inner loop of `check_command` / `auto_monitor`:
skip a missing signature, skip an already-cached key, otherwise record the
key, bump the wallet and user counters and queue the alert. -/
def scanTx (user_id address now : String) (st : ScanSt) (tx : Tx) : ScanSt :=
  match sigOf tx with
  | none => st
  | some tx_id =>
    let key := cacheKey user_id address tx_id
    if hasKey st.cache key then st
    else
      { cache := st.cache ++ [(key, now)]
        w := { st.w with tx_count := st.w.tx_count + 1, last_tx := some now }
        ac := st.ac + 1
        alerts := st.alerts ++ [{ tx := tx, name := st.w.name, addr := address }] }

/-- The inner loop over one wallet's fetched transactions. -/
def scanTxs (user_id address now : String) (txs : List Tx) (st : ScanSt) : ScanSt :=
  txs.foldl (scanTx user_id address now) st

/-- The outer loop over a user's wallets: fetch and scan each address in
iteration order, threading the cache, the alert counter and the alert list. -/
def cycleWallets (user_id now : String) (fetch : String → List Tx) :
    List (String × Wallet) → List (String × String) → Nat → List Alert →
    List (String × Wallet) × List (String × String) × Nat × List Alert
  | [], cache, ac, alerts => ([], cache, ac, alerts)
  | (address, w) :: rest, cache, ac, alerts =>
    let st := scanTxs user_id address now (fetch address)
      { cache := cache, w := w, ac := ac, alerts := alerts }
    let r := cycleWallets user_id now fetch rest st.cache st.ac st.alerts
    ((address, st.w) :: r.1, r.2)

/-- Commit of one poll cycle for one user: write the mutated wallets, counter
and cache back into the database and, exactly when at least one novel record
was found, flush to disk (`if new_alerts: db.save_data()`). -/
def commitCycle (db : WalletDatabase) (user_id now : String)
    (fetch : String → List Tx) (user : UserData) : WalletDatabase × List Alert :=
  let r := cycleWallets user_id now fetch user.wallets db.tx_cache user.alert_count []
  let user' := { user with wallets := r.1, alert_count := r.2.2.1 }
  let db' := { db with users := setUser db.users user_id user', tx_cache := r.2.1 }
  (if r.2.2.2.isEmpty then db' else save_data db', r.2.2.2)

/-- The state-and-novel-records part of one poll cycle (shared by the manual
`/check` and the scheduled monitor): get-or-create the user, scan every
tracked address, commit. -/
def runCycle (db : WalletDatabase) (user_id now : String)
    (fetch : String → List Tx) : WalletDatabase × List Alert :=
  let p := get_user db user_id now
  commitCycle p.2 user_id now fetch p.1

/-- `format_alert`: the human-readable notification text. `tr` renders a unix
timestamp as local `%H:%M:%S`, `ar` renders `amount/1e9` as `%.4f`; both are
environment-dependent in the source and abstracted here. -/
def format_alert (tr ar : Nat → String) (tx : Tx)
    (wallet_name wallet_address : String) : String :=
  let tx_id := strTake 12 (tx.signature.getD "") ++ "..."
  let tx_type := pyTitle (replaceUnderscore (tx.type.getD "TRANSACTION"))
  let emoji :=
    if strIn "SWAP" tx_type then "🔀"
    else if strIn "NFT" tx_type then "🖼️"
    else if strIn "TRANSFER" tx_type then "💸"
    else "🔍"
  let time_str :=
    match tx.timestamp with
    | some t => if t = 0 then "Just now" else tr t
    | none => "Just now"
  let amount_info :=
    match tx.nativeTransfers with
    | [] => ""
    | amt :: _ => if 0 < amt then "💰 *Amount:* " ++ ar amt ++ " SOL\n" else ""
  pyStrip ("\n" ++ emoji ++ " *New Activity*\n\n📛 *Wallet:* " ++ wallet_name ++
    "\n📝 *TX:* `" ++ tx_id ++ "`\n📊 *Type:* " ++ tx_type ++
    "\n⏰ *Time:* " ++ time_str ++ "\n" ++ amount_info ++
    "🔗 [View on Solscan](https://solscan.io/tx/" ++ tx.signature.getD "" ++
    ")\n\n📍 `" ++ strTake 10 wallet_address ++ "...`\n    ")

/-- Observable events of a cycle: a message sent to a chat, the 1-second
anti-spam sleep, a `print` log line, and the `RuntimeError` CPython raises when
`db.users` changes size during the monitor's iteration. -/
inductive Ev where
  | sent : String → String → Ev
  | slept : Ev
  | logged : String → Ev
  | runtimeError : Ev
deriving DecidableEq, Repr

/-- The alert-delivery tail of `check_command`: at most the first three alerts
are sent (each followed by the pacing sleep), then a single summary when more
than three were novel, or the no-news message when none was. -/
def sendAlerts (tr ar : Nat → String) (user_id : String) (alerts : List Alert) :
    List Ev :=
  if alerts.isEmpty then [Ev.sent user_id "✅ No new transactions found."]
  else
    ((alerts.take 3).map fun a =>
      [Ev.sent user_id (format_alert tr ar a.tx a.name a.addr), Ev.slept]).flatten
    ++ (if 3 < alerts.length then
        [Ev.sent user_id ("📨 +" ++ Nat.repr (alerts.length - 3) ++ " more transactions...")]
      else [])

/-- The whole `/check` handler: get-or-create, early return without wallets,
otherwise the progress message, one poll cycle, and the alert delivery. -/
def check_command (tr ar : Nat → String) (fetch : String → List Tx)
    (db : WalletDatabase) (user_id now : String) : WalletDatabase × List Ev :=
  let p := get_user db user_id now
  if p.1.wallets.isEmpty then
    (p.2, [Ev.sent user_id "❌ No wallets to check. Add one with `/add`"])
  else
    let c := commitCycle p.2 user_id now fetch p.1
    (c.1, Ev.sent user_id "🔍 Checking for new transactions..." :: sendAlerts tr ar user_id c.2)

/-- Result of one Telegram `send_message` attempt: success, or an exception
carrying the message string the except-clause inspects. -/
inductive SendRes where
  | ok : SendRes
  | err : String → SendRes
deriving DecidableEq, Repr

/-- The unreachable-recipient test of `auto_monitor`:
`"blocked" in str(e).lower() or "forbidden" in str(e).lower()`. -/
def blockedClass (m : String) : Bool :=
  strIn "blocked" (strLower m) || strIn "forbidden" (strLower m)

/-- The send loop of `auto_monitor` over `new_alerts[:3]`, indexed by attempt
number: a successful send emits the message and the pacing sleep; a
blocked/forbidden exception logs, signals removal and breaks; any other
exception silently falls through to the next alert. Returns the events, the
removal flag, and the index after the last attempt. -/
def autoSendLoop (send : Nat → SendRes) (user_id : String) (tr ar : Nat → String) :
    List Alert → Nat → List Ev × Bool × Nat
  | [], i => ([], false, i)
  | a :: rest, i =>
    match send i with
    | SendRes.ok =>
      let r := autoSendLoop send user_id tr ar rest (i + 1)
      (Ev.sent user_id (format_alert tr ar a.tx a.name a.addr) :: Ev.slept :: r.1, r.2)
    | SendRes.err m =>
      if blockedClass m then
        ([Ev.logged ("User " ++ user_id ++ " blocked bot, removing...")], true, i)
      else autoSendLoop send user_id tr ar rest (i + 1)

/-- The body of `auto_monitor`'s per-user try-block: convert the id, run one
poll cycle, and when it found novel records deliver at most three of them;
a blocked recipient is deleted from `db.users` and the deletion persisted.
The returned flag reports whether `db.users` changed size. -/
def autoUserStep (tr ar : Nat → String) (fetch : String → List Tx)
    (send : String → Nat → SendRes) (now : String) (db : WalletDatabase)
    (user_id : String) : WalletDatabase × List Ev × Bool :=
  if pyIntOk user_id then
    match alookup user_id db.users with
    | none => (db, [], false)
    | some user =>
      let c := commitCycle db user_id now fetch user
      if c.2.isEmpty then (c.1, [], false)
      else
        let r := autoSendLoop (send user_id) user_id tr ar (c.2.take 3) 0
        if r.2.1 then
          (save_data { c.1 with users := eraseKey user_id c.1.users }, r.1, true)
        else (c.1, r.1, false)
  else (db, [Ev.logged ("Error monitoring user " ++ user_id)], false)

/-- The monitor's `for user_id_str, user_data in db.users.items()` loop. When a
step deleted a user, the next advance of the live dict iterator raises
`RuntimeError` (dictionary changed size during iteration) outside the per-user
try-block, aborting the loop for every remaining user. -/
def monitorGo (tr ar : Nat → String) (fetch : String → List Tx)
    (send : String → Nat → SendRes) (now : String) :
    List String → WalletDatabase → WalletDatabase × List Ev
  | [], db => (db, [])
  | uid :: rest, db =>
    let r := autoUserStep tr ar fetch send now db uid
    if r.2.2 then (r.1, r.2.1 ++ [Ev.runtimeError])
    else
      let r2 := monitorGo tr ar fetch send now rest r.1
      (r2.1, r.2.1 ++ r2.2)

/-- One scheduled `auto_monitor` pass over every known user. -/
def auto_monitor (tr ar : Nat → String) (fetch : String → List Tx)
    (send : String → Nat → SendRes) (now : String) (db : WalletDatabase) :
    WalletDatabase × List Ev :=
  monitorGo tr ar fetch send now (db.users.map Prod.fst) db

/-- Store operations a user session can issue, for invariant statements. -/
inductive StoreOp where
  | add : String → String → String → String → StoreOp
  | remove : String → String → String → StoreOp
  | touch : String → String → StoreOp
deriving DecidableEq, Repr

/-- Apply one store operation to the database. -/
def applyOp (db : WalletDatabase) : StoreOp → WalletDatabase
  | StoreOp.add uid addr name now => (add_wallet db uid addr name now).2
  | StoreOp.remove uid ident now => (remove_wallet db uid ident now).2
  | StoreOp.touch uid now => (get_user db uid now).2

/-- Apply a sequence of store operations. -/
def applyOps (db : WalletDatabase) (ops : List StoreOp) : WalletDatabase :=
  ops.foldl applyOp db

/-- The per-tenant quota invariant: no user holds more than 10 wallets. -/
def quotaOK (db : WalletDatabase) : Prop :=
  ∀ p ∈ db.users, p.2.wallets.length ≤ 10

instance : DecidablePred quotaOK := fun db =>
  inferInstanceAs (Decidable (∀ p ∈ db.users, p.2.wallets.length ≤ 10))

/-- Whether an event is a sent chat message. -/
def isSent : Ev → Bool
  | Ev.sent _ _ => true
  | _ => false

/-- Whether an event is a `print` log line. -/
def isLogged : Ev → Bool
  | Ev.logged _ => true
  | _ => false

/-- Number of chat messages in an event trace. -/
def countSent (evs : List Ev) : Nat := (evs.filter isSent).length

/-- Whether an event is the `+N more transactions` summary message (the 📨
marker appears in no other message the program builds). -/
def isSummaryMsg : Ev → Bool
  | Ev.sent _ t => strIn "📨" t
  | _ => false

/-- A string free of the underscore that delimits the dedup-key components;
every Telegram user id (a decimal integer) satisfies it. -/
def noUS (s : String) : Bool := s.data.all fun c => c ≠ '_'

/-- Fixed time renderer for concrete scenarios. -/
def tr0 : Nat → String := fun _ => "12:00:00"

/-- Fixed amount renderer for concrete scenarios. -/
def ar0 : Nat → String := fun _ => "1.0000"

/-- A minimal activity record with the given signature. -/
def mkTx (s : String) : Tx :=
  { signature := some s, type := none, timestamp := none, nativeTransfers := [] }

/-- A plain wallet record for concrete scenarios. -/
def wX : Wallet := { name := "W", added := "d", last_tx := none, tx_count := 0 }

/-- A user tracking the single address `A`. -/
def uA : UserData := { wallets := [("A", wX)], created := "d", alert_count := 0 }

/-- A user tracking the single address `B`. -/
def uB : UserData := { wallets := [("B", wX)], created := "d", alert_count := 0 }

/-- A one-user database (user `1` tracking address `A`). -/
def dbOne : WalletDatabase :=
  { users := [("1", uA)], tx_cache := [], disk_users := [], disk_cache := [] }

/-- A two-user database (user `1` tracking `A`, user `2` tracking `B`). -/
def dbTwo : WalletDatabase :=
  { users := [("1", uA), ("2", uB)], tx_cache := [], disk_users := [], disk_cache := [] }

/-- A two-user database in which both users track the identical address `A`. -/
def dbShared : WalletDatabase :=
  { users := [("1", uA), ("2", { wallets := [("A", wX)], created := "d", alert_count := 0 })],
    tx_cache := [], disk_users := [], disk_cache := [] }

/-- An ActivitySource returning one fixed record for every address. -/
def fetchOne : String → List Tx := fun _ => [mkTx "s"]

/-- An ActivitySource returning seven fixed records for every address. -/
def fetchSeven : String → List Tx := fun _ =>
  [mkTx "s1", mkTx "s2", mkTx "s3", mkTx "s4", mkTx "s5", mkTx "s6", mkTx "s7"]

/-- A delivery channel on which every send succeeds. -/
def sendOK : String → Nat → SendRes := fun _ _ => SendRes.ok

/-- A delivery channel on which every send raises the blocked-recipient
exception python-telegram-bot produces. -/
def sendBlocked : String → Nat → SendRes :=
  fun _ _ => SendRes.err "Forbidden: bot was blocked by the user"

/-- A delivery channel that blocks user `1` and accepts everyone else. -/
def sendBlocked1 : String → Nat → SendRes :=
  fun uid _ => if uid = "1" then SendRes.err "Forbidden: bot was blocked by the user" else SendRes.ok

/-- A delivery channel whose first attempt fails with a transient error and
whose later attempts succeed. -/
def sendFlaky : Nat → SendRes :=
  fun j => if j = 0 then SendRes.err "Request timed out" else SendRes.ok

/-- A delivery channel on which every attempt fails with a transient error. -/
def sendChatGone : Nat → SendRes := fun _ => SendRes.err "Bad Request: chat not found"

/-- The pending alert carrying the record with the given signature for the
wallet `W` at address `A`. -/
def alertOf (s : String) : Alert := { tx := mkTx s, name := "W", addr := "A" }

/-- Ten wallets, filling user `1`'s quota. -/
def tenWallets : List (String × Wallet) :=
  [("A0", wX), ("A1", wX), ("A2", wX), ("A3", wX), ("A4", wX),
   ("A5", wX), ("A6", wX), ("A7", wX), ("A8", wX), ("A9", wX)]

/-- A database whose user `1` already tracks ten wallets. -/
def dbFull : WalletDatabase :=
  { users := [("1", { wallets := tenWallets, created := "d", alert_count := 0 })],
    tx_cache := [], disk_users := [], disk_cache := [] }

/-- A wallet named `beta`. -/
def wBeta : Wallet := { name := "beta", added := "d", last_tx := none, tx_count := 0 }

/-- A wallet named `gamma`. -/
def wGamma : Wallet := { name := "gamma", added := "d", last_tx := none, tx_count := 0 }

/-- A wallet named `BETA`. -/
def wBETA : Wallet := { name := "BETA", added := "d", last_tx := none, tx_count := 0 }

/-- A database for the removal scenarios: user `3` tracks a wallet named
`beta`, a wallet whose address is the string `beta`, and a wallet named
`BETA`. -/
def uRemove : UserData :=
  { wallets := [("addrA", wBeta), ("beta", wGamma), ("Z", wBETA)],
    created := "d", alert_count := 0 }

def dbRemove : WalletDatabase :=
  { users := [("3", uRemove)], tx_cache := [], disk_users := [], disk_cache := [] }

/-- A wallet named `Main`. -/
def wMain : Wallet := { name := "Main", added := "d", last_tx := none, tx_count := 0 }

/-- A wallet named `MAIN`. -/
def wMAIN : Wallet := { name := "MAIN", added := "d", last_tx := none, tx_count := 0 }

/-- A user tracking two wallets with case-insensitively equal display names. -/
def uDup : UserData :=
  { wallets := [("X", wMain), ("Y", wMAIN)], created := "d", alert_count := 0 }

/-- A database whose user `5` tracks two wallets with case-insensitively equal
display names. -/
def dbDupNames : WalletDatabase :=
  { users := [("5", uDup)], tx_cache := [], disk_users := [], disk_cache := [] }

/-- An ActivitySource for which exactly the address `C` fails (empty result)
while every other address yields one record. -/
def fetchCFails : String → List Tx := fun a => if a = "C" then [] else [mkTx "s"]

theorem alookup_setUser_self {α : Type} (l : List (String × α)) (k : String) (v : α) :
    alookup k (setUser l k v) = some v := by
  induction l with
  | nil => simp [setUser, alookup]
  | cons p rest ih =>
    obtain ⟨a, w⟩ := p
    by_cases h : a = k
    · simp [setUser, h, alookup]
    · simp [setUser, h, alookup, ih]

theorem alookup_setUser_ne {α : Type} (l : List (String × α)) (k k' : String) (v : α)
    (h : k ≠ k') : alookup k' (setUser l k v) = alookup k' l := by
  induction l with
  | nil => simp [setUser, alookup, h]
  | cons p rest ih =>
    obtain ⟨a, w⟩ := p
    by_cases ha : a = k
    · subst ha
      simp [setUser, alookup, h]
    · simp [setUser, ha, alookup, ih]

theorem setUser_self_of_lookup {α : Type} (l : List (String × α)) (k : String) (v : α)
    (h : alookup k l = some v) : setUser l k v = l := by
  induction l with
  | nil => simp [alookup] at h
  | cons p rest ih =>
    obtain ⟨a, w⟩ := p
    by_cases ha : a = k
    · subst ha
      simp [alookup] at h
      simp [setUser, h]
    · simp [alookup, ha] at h
      simp [setUser, ha, ih h]

theorem alookup_append_left {α : Type} (l1 l2 : List (String × α)) (k : String) (v : α)
    (h : alookup k l1 = some v) : alookup k (l1 ++ l2) = some v := by
  induction l1 with
  | nil => simp [alookup] at h
  | cons p rest ih =>
    obtain ⟨a, w⟩ := p
    by_cases ha : a = k
    · simp [alookup, ha] at h ⊢
      exact h
    · simp [alookup, ha] at h ⊢
      exact ih h

theorem alookup_append_right {α : Type} (l1 l2 : List (String × α)) (k : String)
    (h : alookup k l1 = none) : alookup k (l1 ++ l2) = alookup k l2 := by
  induction l1 with
  | nil => simp
  | cons p rest ih =>
    obtain ⟨a, w⟩ := p
    by_cases ha : a = k
    · simp [alookup, ha] at h
    · simp [alookup, ha] at h ⊢
      exact ih h


theorem alookup_append_singleton_ne {α : Type} (l : List (String × α)) (k k' : String)
    (v : α) (h : k ≠ k') : alookup k' (l ++ [(k, v)]) = alookup k' l := by
  cases hl : alookup k' l with
  | some w => exact alookup_append_left l [(k, v)] k' w hl
  | none =>
    rw [alookup_append_right l [(k, v)] k' hl]
    simp [alookup, h]

theorem hasKey_append {α : Type} (l1 l2 : List (String × α)) (k : String) :
    hasKey (l1 ++ l2) k = (hasKey l1 k || hasKey l2 k) := by
  induction l1 with
  | nil => simp [hasKey, alookup]
  | cons p rest ih =>
    obtain ⟨a, w⟩ := p
    by_cases ha : a = k
    · simp [hasKey, alookup, ha]
    · simpa [hasKey, alookup, ha] using ih

theorem hasKey_single {α : Type} (k k' : String) (v : α) :
    hasKey [(k, v)] k' = decide (k = k') := by
  by_cases h : k = k' <;> simp [hasKey, alookup, h]

theorem alookup_eraseKey_ne {α : Type} (l : List (String × α)) (k k' : String)
    (h : k' ≠ k) : alookup k' (eraseKey k l) = alookup k' l := by
  induction l with
  | nil => simp [eraseKey]
  | cons p rest ih =>
    obtain ⟨a, w⟩ := p
    by_cases ha : a = k
    · have hak' : ¬(a = k') := fun hh => h (hh.symm.trans ha)
      have hkk' : ¬(k = k') := fun hh => h hh.symm
      simp [eraseKey, ha, alookup, hak', hkk']
    · simp [eraseKey, ha, alookup, ih]

theorem alookup_eq_none_of_not_mem {α : Type} (l : List (String × α)) (k : String)
    (h : k ∉ l.map Prod.fst) : alookup k l = none := by
  induction l with
  | nil => simp [alookup]
  | cons p rest ih =>
    obtain ⟨a, w⟩ := p
    have h1 : ¬(a = k) := by
      intro hh
      exact h (by simp [hh])
    have h2 : k ∉ rest.map Prod.fst := by
      intro hh
      exact h (by simp [hh])
    simp [alookup, h1, ih h2]

theorem alookup_eraseKey_self {α : Type} (l : List (String × α)) (k : String)
    (hnd : (l.map Prod.fst).Nodup) : alookup k (eraseKey k l) = none := by
  induction l with
  | nil => simp [eraseKey, alookup]
  | cons p rest ih =>
    obtain ⟨a, w⟩ := p
    rw [List.map_cons, List.nodup_cons] at hnd
    by_cases ha : a = k
    · simp only [eraseKey, if_pos ha]
      exact alookup_eq_none_of_not_mem rest k (ha ▸ hnd.1)
    · have hak : ¬(a = k) := ha
      simp [eraseKey, ha, alookup, hak, ih hnd.2]

theorem eraseKey_append_not_mem {α : Type} (l1 l2 : List (String × α)) (k : String)
    (v : α) (h : k ∉ l1.map Prod.fst) :
    eraseKey k (l1 ++ (k, v) :: l2) = l1 ++ l2 := by
  induction l1 with
  | nil => simp [eraseKey]
  | cons p rest ih =>
    obtain ⟨a, w⟩ := p
    have h1 : ¬(a = k) := by
      intro hh
      exact h (by simp [hh])
    have h2 : k ∉ rest.map Prod.fst := by
      intro hh
      exact h (by simp [hh])
    simp [eraseKey, h1, ih h2]

theorem eraseKey_length_le {α : Type} (l : List (String × α)) (k : String) :
    (eraseKey k l).length ≤ l.length := by
  induction l with
  | nil => simp [eraseKey]
  | cons p rest ih =>
    obtain ⟨a, w⟩ := p
    by_cases ha : a = k
    · simp [eraseKey, ha]
    · simp only [eraseKey, if_neg ha, List.length_cons]
      omega

theorem mem_setUser {α : Type} (l : List (String × α)) (k : String) (v : α)
    (p : String × α) (h : p ∈ setUser l k v) : p = (k, v) ∨ p ∈ l := by
  induction l with
  | nil => simpa [setUser] using h
  | cons q rest ih =>
    obtain ⟨a, w⟩ := q
    by_cases ha : a = k
    · rw [setUser, if_pos ha] at h
      rcases List.mem_cons.mp h with h | h
      · exact Or.inl h
      · exact Or.inr (List.mem_cons_of_mem _ h)
    · rw [setUser, if_neg ha] at h
      rcases List.mem_cons.mp h with h | h
      · exact Or.inr (h ▸ List.mem_cons_self _ _)
      · rcases ih h with h2 | h2
        · exact Or.inl h2
        · exact Or.inr (List.mem_cons_of_mem _ h2)

theorem setUser_map_fst_of_lookup {α : Type} (l : List (String × α)) (k : String)
    (v v0 : α) (h : alookup k l = some v0) :
    (setUser l k v).map Prod.fst = l.map Prod.fst := by
  induction l with
  | nil => simp [alookup] at h
  | cons p rest ih =>
    obtain ⟨a, w⟩ := p
    by_cases ha : a = k
    · rw [setUser, if_pos ha, List.map_cons, List.map_cons]
      simp [ha]
    · rw [alookup, if_neg ha] at h
      rw [setUser, if_neg ha, List.map_cons, List.map_cons, ih h]

theorem scanTxs_nil (uid a now : String) (st : ScanSt) :
    scanTxs uid a now [] st = st := rfl

theorem scanTxs_cons (uid a now : String) (t : Tx) (rest : List Tx) (st : ScanSt) :
    scanTxs uid a now (t :: rest) st = scanTxs uid a now rest (scanTx uid a now st t) := rfl

theorem scanTx_mono (uid a now : String) (st : ScanSt) (tx : Tx) (k : String)
    (h : hasKey st.cache k = true) : hasKey (scanTx uid a now st tx).cache k = true := by
  unfold scanTx
  cases hs : sigOf tx with
  | none => simpa using h
  | some s =>
    by_cases hk : hasKey st.cache (cacheKey uid a s)
    · simpa [hk] using h
    · simp [hk, hasKey_append, h]

theorem scan_mono (uid a now : String) (txs : List Tx) (st : ScanSt) (k : String)
    (h : hasKey st.cache k = true) : hasKey (scanTxs uid a now txs st).cache k = true := by
  induction txs generalizing st with
  | nil => simpa using h
  | cons t rest ih =>
    rw [scanTxs_cons]
    exact ih _ (scanTx_mono uid a now st t k h)

theorem scanTx_sets (uid a now : String) (st : ScanSt) (tx : Tx) (s : String)
    (hs : sigOf tx = some s) :
    hasKey (scanTx uid a now st tx).cache (cacheKey uid a s) = true := by
  unfold scanTx
  rw [hs]
  by_cases hk : hasKey st.cache (cacheKey uid a s)
  · simp [hk]
  · simp [hk, hasKey_append, hasKey_single]

theorem scan_covers (uid a now : String) (txs : List Tx) (st : ScanSt) :
    ∀ tx ∈ txs, ∀ s, sigOf tx = some s →
      hasKey (scanTxs uid a now txs st).cache (cacheKey uid a s) = true := by
  induction txs generalizing st with
  | nil =>
    intro tx h
    simp at h
  | cons t rest ih =>
    intro tx htx s hs
    rw [scanTxs_cons]
    rcases List.mem_cons.mp htx with h | h
    · subst h
      exact scan_mono uid a now rest _ _ (scanTx_sets uid a now st tx s hs)
    · exact ih _ tx h s hs

theorem scan_stable (uid a now : String) (txs : List Tx) (st : ScanSt)
    (h : ∀ tx ∈ txs, ∀ s, sigOf tx = some s →
      hasKey st.cache (cacheKey uid a s) = true) :
    scanTxs uid a now txs st = st := by
  induction txs with
  | nil => rfl
  | cons t rest ih =>
    have ht : scanTx uid a now st t = st := by
      unfold scanTx
      cases hs : sigOf t with
      | none => rfl
      | some s => simp [h t (List.mem_cons_self t rest) s hs]
    rw [scanTxs_cons, ht]
    exact ih fun tx htx s hs => h tx (List.mem_cons_of_mem t htx) s hs

theorem scanTx_other (uid a now : String) (st : ScanSt) (tx : Tx) (k : String)
    (hk : ∀ s, k ≠ cacheKey uid a s) :
    hasKey (scanTx uid a now st tx).cache k = hasKey st.cache k := by
  unfold scanTx
  cases hs : sigOf tx with
  | none => rfl
  | some s =>
    by_cases hc : hasKey st.cache (cacheKey uid a s)
    · simp [hc]
    · have : ¬(cacheKey uid a s = k) := fun hh => hk s hh.symm
      simp [hc, hasKey_append, hasKey_single, this]

theorem scan_other (uid a now : String) (txs : List Tx) (st : ScanSt) (k : String)
    (hk : ∀ s, k ≠ cacheKey uid a s) :
    hasKey (scanTxs uid a now txs st).cache k = hasKey st.cache k := by
  induction txs generalizing st with
  | nil => rfl
  | cons t rest ih =>
    rw [scanTxs_cons, ih, scanTx_other uid a now st t k hk]

theorem scan_agree (uid a now : String) (txs : List Tx) (c1 c2 : List (String × String))
    (w : Wallet) (ac : Nat) (al : List Alert)
    (h : ∀ a' s, hasKey c1 (cacheKey uid a' s) = hasKey c2 (cacheKey uid a' s)) :
    (scanTxs uid a now txs ⟨c1, w, ac, al⟩).w = (scanTxs uid a now txs ⟨c2, w, ac, al⟩).w ∧
    (scanTxs uid a now txs ⟨c1, w, ac, al⟩).ac = (scanTxs uid a now txs ⟨c2, w, ac, al⟩).ac ∧
    (scanTxs uid a now txs ⟨c1, w, ac, al⟩).alerts = (scanTxs uid a now txs ⟨c2, w, ac, al⟩).alerts ∧
    ∀ a' s, hasKey (scanTxs uid a now txs ⟨c1, w, ac, al⟩).cache (cacheKey uid a' s)
      = hasKey (scanTxs uid a now txs ⟨c2, w, ac, al⟩).cache (cacheKey uid a' s) := by
  induction txs generalizing c1 c2 w ac al with
  | nil => exact ⟨rfl, rfl, rfl, h⟩
  | cons t rest ih =>
    rw [scanTxs_cons, scanTxs_cons]
    cases hs : sigOf t with
    | none =>
      simp only [scanTx, hs]
      exact ih c1 c2 w ac al h
    | some s =>
      have hd := h a s
      by_cases hk : hasKey c1 (cacheKey uid a s)
      · have hk2 : hasKey c2 (cacheKey uid a s) = true := by rw [← hd]; exact hk
        simp only [scanTx, hs, hk, hk2, if_true]
        exact ih c1 c2 w ac al h
      · have hk1 : hasKey c1 (cacheKey uid a s) = false := by simpa using hk
        have hk2 : hasKey c2 (cacheKey uid a s) = false := by rw [← hd]; exact hk1
        simp only [scanTx, hs, hk1, hk2, Bool.false_eq_true, if_false]
        exact ih _ _ _ _ _ fun a' s' => by
          rw [hasKey_append, hasKey_append, h a' s']

theorem cycleWallets_nil (uid now : String) (f : String → List Tx)
    (cache : List (String × String)) (ac : Nat) (al : List Alert) :
    cycleWallets uid now f [] cache ac al = ([], cache, ac, al) := rfl

theorem cycleWallets_cons (uid now : String) (f : String → List Tx) (a : String)
    (w : Wallet) (rest : List (String × Wallet)) (cache : List (String × String))
    (ac : Nat) (al : List Alert) :
    cycleWallets uid now f ((a, w) :: rest) cache ac al =
      ((a, (scanTxs uid a now (f a) ⟨cache, w, ac, al⟩).w) ::
        (cycleWallets uid now f rest (scanTxs uid a now (f a) ⟨cache, w, ac, al⟩).cache
          (scanTxs uid a now (f a) ⟨cache, w, ac, al⟩).ac
          (scanTxs uid a now (f a) ⟨cache, w, ac, al⟩).alerts).1,
       (cycleWallets uid now f rest (scanTxs uid a now (f a) ⟨cache, w, ac, al⟩).cache
         (scanTxs uid a now (f a) ⟨cache, w, ac, al⟩).ac
         (scanTxs uid a now (f a) ⟨cache, w, ac, al⟩).alerts).2) := rfl

theorem cw_mono (uid now : String) (f : String → List Tx) (ws : List (String × Wallet))
    (cache : List (String × String)) (ac : Nat) (al : List Alert) (k : String)
    (h : hasKey cache k = true) :
    hasKey (cycleWallets uid now f ws cache ac al).2.1 k = true := by
  induction ws generalizing cache ac al with
  | nil => simpa using h
  | cons p rest ih =>
    obtain ⟨a, w⟩ := p
    rw [cycleWallets_cons]
    exact ih _ _ _ (scan_mono uid a now (f a) ⟨cache, w, ac, al⟩ k h)

theorem cw_covers (uid now : String) (f : String → List Tx) (ws : List (String × Wallet))
    (cache : List (String × String)) (ac : Nat) (al : List Alert) :
    ∀ a ∈ ws.map Prod.fst, ∀ tx ∈ f a, ∀ s, sigOf tx = some s →
      hasKey (cycleWallets uid now f ws cache ac al).2.1 (cacheKey uid a s) = true := by
  induction ws generalizing cache ac al with
  | nil =>
    intro a ha
    simp at ha
  | cons p rest ih =>
    obtain ⟨a0, w0⟩ := p
    intro a ha tx htx s hs
    rw [List.map_cons] at ha
    rw [cycleWallets_cons]
    rcases List.mem_cons.mp ha with h | h
    · subst h
      exact cw_mono uid now f rest _ _ _ _
        (scan_covers uid a now (f a) ⟨cache, w0, ac, al⟩ tx htx s hs)
    · exact ih _ _ _ a h tx htx s hs

theorem cw_keys (uid now : String) (f : String → List Tx) (ws : List (String × Wallet))
    (cache : List (String × String)) (ac : Nat) (al : List Alert) :
    (cycleWallets uid now f ws cache ac al).1.map Prod.fst = ws.map Prod.fst := by
  induction ws generalizing cache ac al with
  | nil => rfl
  | cons p rest ih =>
    obtain ⟨a, w⟩ := p
    rw [cycleWallets_cons, List.map_cons, List.map_cons, ih]

theorem cw_stable (uid now : String) (f : String → List Tx) (ws : List (String × Wallet))
    (cache : List (String × String)) (ac : Nat) (al : List Alert)
    (h : ∀ a ∈ ws.map Prod.fst, ∀ tx ∈ f a, ∀ s, sigOf tx = some s →
      hasKey cache (cacheKey uid a s) = true) :
    cycleWallets uid now f ws cache ac al = (ws, cache, ac, al) := by
  induction ws with
  | nil => rfl
  | cons p rest ih =>
    obtain ⟨a, w⟩ := p
    have hst : scanTxs uid a now (f a) ⟨cache, w, ac, al⟩ = ⟨cache, w, ac, al⟩ :=
      scan_stable uid a now (f a) _
        (fun tx htx s hs => h a (by simp) tx htx s hs)
    rw [cycleWallets_cons, hst]
    rw [ih fun a' ha' tx htx s hs =>
      h a' (by rw [List.map_cons]; exact List.mem_cons_of_mem _ ha') tx htx s hs]

theorem cw_other (uid now : String) (f : String → List Tx) (ws : List (String × Wallet))
    (cache : List (String × String)) (ac : Nat) (al : List Alert) (k : String)
    (hk : ∀ a s, k ≠ cacheKey uid a s) :
    hasKey (cycleWallets uid now f ws cache ac al).2.1 k = hasKey cache k := by
  induction ws generalizing cache ac al with
  | nil => rfl
  | cons p rest ih =>
    obtain ⟨a, w⟩ := p
    rw [cycleWallets_cons]
    rw [ih, scan_other uid a now (f a) ⟨cache, w, ac, al⟩ k (fun s => hk a s)]

theorem cw_agree (uid now : String) (f : String → List Tx) (ws : List (String × Wallet))
    (c1 c2 : List (String × String)) (ac : Nat) (al : List Alert)
    (h : ∀ a s, hasKey c1 (cacheKey uid a s) = hasKey c2 (cacheKey uid a s)) :
    (cycleWallets uid now f ws c1 ac al).1 = (cycleWallets uid now f ws c2 ac al).1 ∧
    (cycleWallets uid now f ws c1 ac al).2.2.1 = (cycleWallets uid now f ws c2 ac al).2.2.1 ∧
    (cycleWallets uid now f ws c1 ac al).2.2.2 = (cycleWallets uid now f ws c2 ac al).2.2.2 ∧
    ∀ a s, hasKey (cycleWallets uid now f ws c1 ac al).2.1 (cacheKey uid a s)
      = hasKey (cycleWallets uid now f ws c2 ac al).2.1 (cacheKey uid a s) := by
  induction ws generalizing c1 c2 ac al with
  | nil => exact ⟨rfl, rfl, rfl, h⟩
  | cons p rest ih =>
    obtain ⟨a, w⟩ := p
    obtain ⟨hw, hac, hal, hc⟩ := scan_agree uid a now (f a) c1 c2 w ac al h
    rw [cycleWallets_cons, cycleWallets_cons, ← hw, ← hac, ← hal]
    obtain ⟨h1, h2, h3, h4⟩ := ih
      (scanTxs uid a now (f a) ⟨c1, w, ac, al⟩).cache
      (scanTxs uid a now (f a) ⟨c2, w, ac, al⟩).cache
      (scanTxs uid a now (f a) ⟨c1, w, ac, al⟩).ac
      (scanTxs uid a now (f a) ⟨c1, w, ac, al⟩).alerts hc
    exact ⟨by rw [h1], h2, h3, h4⟩

theorem cw_append (uid now : String) (f : String → List Tx)
    (ws1 ws2 : List (String × Wallet)) (cache : List (String × String))
    (ac : Nat) (al : List Alert) :
    cycleWallets uid now f (ws1 ++ ws2) cache ac al =
      ((cycleWallets uid now f ws1 cache ac al).1 ++
        (cycleWallets uid now f ws2 (cycleWallets uid now f ws1 cache ac al).2.1
          (cycleWallets uid now f ws1 cache ac al).2.2.1
          (cycleWallets uid now f ws1 cache ac al).2.2.2).1,
       (cycleWallets uid now f ws2 (cycleWallets uid now f ws1 cache ac al).2.1
         (cycleWallets uid now f ws1 cache ac al).2.2.1
         (cycleWallets uid now f ws1 cache ac al).2.2.2).2) := by
  induction ws1 generalizing cache ac al with
  | nil => rfl
  | cons p rest ih =>
    obtain ⟨a, w⟩ := p
    rw [List.cons_append, cycleWallets_cons, cycleWallets_cons, ih]
    simp

theorem get_user_fst_lookup (db : WalletDatabase) (uid now : String) :
    alookup uid (get_user db uid now).2.users = some (get_user db uid now).1 := by
  unfold get_user
  cases h : alookup uid db.users with
  | some u => exact h
  | none =>
    show alookup uid (db.users ++ [(uid, _)]) = _
    rw [alookup_append_right db.users _ uid h]
    simp [alookup]

theorem get_user_users_other (db : WalletDatabase) (uid u2 now : String)
    (h : uid ≠ u2) :
    alookup u2 (get_user db uid now).2.users = alookup u2 db.users := by
  unfold get_user
  cases hl : alookup uid db.users with
  | some u => rfl
  | none => exact alookup_append_singleton_ne db.users uid u2 _ h

theorem get_user_tx_cache (db : WalletDatabase) (uid now : String) :
    (get_user db uid now).2.tx_cache = db.tx_cache := by
  unfold get_user
  cases alookup uid db.users <;> rfl

theorem commitCycle_users (db : WalletDatabase) (uid now : String)
    (f : String → List Tx) (u : UserData) :
    (commitCycle db uid now f u).1.users =
      setUser db.users uid
        { u with
          wallets := (cycleWallets uid now f u.wallets db.tx_cache u.alert_count []).1,
          alert_count := (cycleWallets uid now f u.wallets db.tx_cache u.alert_count []).2.2.1 } := by
  unfold commitCycle
  dsimp only
  split <;> rfl

theorem commitCycle_tx_cache (db : WalletDatabase) (uid now : String)
    (f : String → List Tx) (u : UserData) :
    (commitCycle db uid now f u).1.tx_cache =
      (cycleWallets uid now f u.wallets db.tx_cache u.alert_count []).2.1 := by
  unfold commitCycle
  dsimp only
  split <;> rfl

theorem commitCycle_alerts (db : WalletDatabase) (uid now : String)
    (f : String → List Tx) (u : UserData) :
    (commitCycle db uid now f u).2 =
      (cycleWallets uid now f u.wallets db.tx_cache u.alert_count []).2.2.2 := rfl

theorem runCycle_def (db : WalletDatabase) (uid now : String) (f : String → List Tx) :
    runCycle db uid now f =
      commitCycle (get_user db uid now).2 uid now f (get_user db uid now).1 := rfl

theorem commit_fix (db1 : WalletDatabase) (uid now2 : String) (f : String → List Tx)
    (u1 : UserData) (hlook : alookup uid db1.users = some u1)
    (hstab : cycleWallets uid now2 f u1.wallets db1.tx_cache u1.alert_count [] =
      (u1.wallets, db1.tx_cache, u1.alert_count, [])) :
    commitCycle db1 uid now2 f u1 = (db1, []) := by
  unfold commitCycle
  rw [hstab]
  dsimp only
  rw [setUser_self_of_lookup db1.users uid u1 hlook]
  rfl

theorem runCycle_fix (db : WalletDatabase) (uid now now2 : String)
    (f : String → List Tx) :
    ∃ u1, alookup uid (runCycle db uid now f).1.users = some u1 ∧
      commitCycle (runCycle db uid now f).1 uid now2 f u1 = ((runCycle db uid now f).1, []) := by
  refine ⟨{ (get_user db uid now).1 with
      wallets := (cycleWallets uid now f (get_user db uid now).1.wallets
        (get_user db uid now).2.tx_cache (get_user db uid now).1.alert_count []).1,
      alert_count := (cycleWallets uid now f (get_user db uid now).1.wallets
        (get_user db uid now).2.tx_cache (get_user db uid now).1.alert_count []).2.2.1 },
    ?_, ?_⟩
  · rw [runCycle_def,
      commitCycle_users (get_user db uid now).2 uid now f (get_user db uid now).1]
    exact alookup_setUser_self _ _ _
  · apply commit_fix
    · rw [runCycle_def,
        commitCycle_users (get_user db uid now).2 uid now f (get_user db uid now).1]
      exact alookup_setUser_self _ _ _
    · dsimp only
      rw [runCycle_def,
        commitCycle_tx_cache (get_user db uid now).2 uid now f (get_user db uid now).1]
      apply cw_stable
      intro a ha tx htx s hs
      rw [cw_keys] at ha
      exact cw_covers uid now f (get_user db uid now).1.wallets
        (get_user db uid now).2.tx_cache (get_user db uid now).1.alert_count []
        a ha tx htx s hs

/-- C1: with the tracked addresses fixed and an unchanged ActivitySource
response, a second poll cycle — whether the manual `/check` cycle (`runCycle`)
or the scheduled monitor step (`autoUserStep`) — finds every dedup key already
present, so it appends no cache entry, increments no counter, leaves the
database exactly as the first cycle left it, and produces no notification. -/
theorem C1_second_cycle_no_novel (db : WalletDatabase) (uid now now2 : String)
    (f : String → List Tx) (tr ar : Nat → String) (send : String → Nat → SendRes)
    (hnum : pyIntOk uid = true) :
    runCycle (runCycle db uid now f).1 uid now2 f = ((runCycle db uid now f).1, []) ∧
    autoUserStep tr ar f send now2 (runCycle db uid now f).1 uid =
      ((runCycle db uid now f).1, [], false) := by
  obtain ⟨u1, hlook, hfix⟩ := runCycle_fix db uid now now2 f
  constructor
  · have hg : get_user (runCycle db uid now f).1 uid now2 = (u1, (runCycle db uid now f).1) := by
      unfold get_user
      rw [hlook]
    rw [runCycle_def (runCycle db uid now f).1 uid now2 f, hg]
    exact hfix
  · unfold autoUserStep
    rw [hnum]
    simp only [if_true, hlook, hfix]
    rfl

/-- Witness instantiating C1 at a concrete one-user database whose only
wallet yields one fixed record. -/
theorem C1_second_cycle_no_novel_witness :
    pyIntOk "1" = true ∧
    (runCycle (runCycle dbOne "1" "t" fetchOne).1 "1" "t2" fetchOne =
        ((runCycle dbOne "1" "t" fetchOne).1, []) ∧
      autoUserStep tr0 ar0 fetchOne sendOK "t2" (runCycle dbOne "1" "t" fetchOne).1 "1" =
        ((runCycle dbOne "1" "t" fetchOne).1, [], false)) :=
  ⟨by decide, C1_second_cycle_no_novel dbOne "1" "t" "t2" fetchOne tr0 ar0 sendOK (by decide)⟩

theorem alookup_mem {α : Type} (l : List (String × α)) (k : String) (v : α)
    (h : alookup k l = some v) : (k, v) ∈ l := by
  induction l with
  | nil => simp [alookup] at h
  | cons p rest ih =>
    obtain ⟨a, w⟩ := p
    by_cases ha : a = k
    · simp [alookup, ha] at h
      exact List.mem_cons.mpr (Or.inl (by rw [ha, h]))
    · rw [alookup, if_neg ha] at h
      exact List.mem_cons_of_mem _ (ih h)

theorem quotaOK_get_user (db : WalletDatabase) (uid now : String) (hq : quotaOK db) :
    quotaOK (get_user db uid now).2 := by
  unfold get_user
  cases hl : alookup uid db.users with
  | some u => exact hq
  | none =>
    intro p hp
    rcases List.mem_append.mp hp with h | h
    · exact hq p h
    · rcases List.mem_singleton.mp h with rfl
      simp

theorem quotaOK_get_user_fst (db : WalletDatabase) (uid now : String) (hq : quotaOK db) :
    (get_user db uid now).1.wallets.length ≤ 10 := by
  unfold get_user
  cases hl : alookup uid db.users with
  | some u => exact hq (uid, u) (alookup_mem db.users uid u hl)
  | none => simp

theorem quotaOK_add (db : WalletDatabase) (uid addr name now : String) (hq : quotaOK db) :
    quotaOK (add_wallet db uid addr name now).2 := by
  have hq2 : quotaOK (get_user db uid now).2 := quotaOK_get_user db uid now hq
  unfold add_wallet
  dsimp only
  split
  · exact hq2
  · split
    · exact hq2
    · rename_i hlen _
      intro q hq3
      rcases mem_setUser _ _ _ _ hq3 with h | h
      · rw [h]
        simp only [List.length_append, List.length_singleton]
        omega
      · exact hq2 q h

theorem quotaOK_remove (db : WalletDatabase) (uid ident now : String) (hq : quotaOK db) :
    quotaOK (remove_wallet db uid ident now).2 := by
  have hq2 : quotaOK (get_user db uid now).2 := quotaOK_get_user db uid now hq
  have hlen : (get_user db uid now).1.wallets.length ≤ 10 :=
    quotaOK_get_user_fst db uid now hq
  unfold remove_wallet
  dsimp only
  split
  · intro q hq3
    rcases mem_setUser _ _ _ _ hq3 with h | h
    · rw [h]
      calc (eraseKey ident (get_user db uid now).1.wallets).length
          ≤ (get_user db uid now).1.wallets.length := eraseKey_length_le _ _
        _ ≤ 10 := hlen
    · exact hq2 q h
  · split
    · intro q hq3
      rcases mem_setUser _ _ _ _ hq3 with h | h
      · rw [h]
        calc (eraseKey _ (get_user db uid now).1.wallets).length
            ≤ (get_user db uid now).1.wallets.length := eraseKey_length_le _ _
          _ ≤ 10 := hlen
      · exact hq2 q h
    · exact hq2

theorem quotaOK_applyOp (db : WalletDatabase) (op : StoreOp) (hq : quotaOK db) :
    quotaOK (applyOp db op) := by
  cases op with
  | add uid addr name now => exact quotaOK_add db uid addr name now hq
  | remove uid ident now => exact quotaOK_remove db uid ident now hq
  | touch uid now => exact quotaOK_get_user db uid now hq

/-- C2: the ten-wallet quota is an invariant of every sequence of
`add_wallet` / `remove_wallet` / `get_user` operations, and a user already
holding ten wallets gets the maximum-reached failure from `add_wallet`,
with the entire database left untouched. -/
theorem C2_quota_enforced (db : WalletDatabase) (ops : List StoreOp)
    (uid addr name now : String) (u : UserData)
    (hq : quotaOK db) (hu : alookup uid db.users = some u)
    (hlen : 10 ≤ u.wallets.length) :
    quotaOK (applyOps db ops) ∧
    add_wallet db uid addr name now = ((false, "❌ Maximum 10 wallets reached"), db) := by
  constructor
  · clear hu hlen
    induction ops generalizing db with
    | nil => exact hq
    | cons op rest ih =>
      exact ih (applyOp db op) (quotaOK_applyOp db op hq)
  · have hg : get_user db uid now = (u, db) := by
      unfold get_user
      rw [hu]
    unfold add_wallet
    rw [hg]
    dsimp only
    rw [if_pos hlen]

/-- Witness instantiating C2: the quota invariant holds after a concrete
operation sequence on the full database, and the eleventh add fails and
changes nothing. -/
theorem C2_quota_enforced_witness :
    quotaOK dbFull ∧
    (quotaOK (applyOps dbFull
        [StoreOp.add "1" "B0" "new" "t", StoreOp.remove "1" "A3" "t", StoreOp.touch "9" "t"]) ∧
      add_wallet dbFull "1" "B0" "new" "t" =
        ((false, "❌ Maximum 10 wallets reached"), dbFull)) :=
  ⟨by decide,
   C2_quota_enforced dbFull
     [StoreOp.add "1" "B0" "new" "t", StoreOp.remove "1" "A3" "t", StoreOp.touch "9" "t"]
     "1" "B0" "new" "t" { wallets := tenWallets, created := "d", alert_count := 0 }
     (by decide) (by decide) (by decide)⟩

theorem findNameMatch_prop (ident : String) (ws : List (String × Wallet))
    (a : String) (w : Wallet) (h : findNameMatch ident ws = some (a, w)) :
    strLower w.name = strLower ident := by
  induction ws with
  | nil => simp [findNameMatch] at h
  | cons p rest ih =>
    obtain ⟨a0, w0⟩ := p
    by_cases hm : strLower w0.name = strLower ident
    · rw [findNameMatch, if_pos hm] at h
      simp at h
      rw [← h.2]
      exact hm
    · rw [findNameMatch, if_neg hm] at h
      exact ih h

theorem findNameMatch_split (ident : String) (ws1 ws2 : List (String × Wallet))
    (a1 : String) (w1 : Wallet)
    (hpre : ∀ p ∈ ws1, strLower p.2.name ≠ strLower ident)
    (hmatch : strLower w1.name = strLower ident) :
    findNameMatch ident (ws1 ++ (a1, w1) :: ws2) = some (a1, w1) := by
  induction ws1 with
  | nil =>
    rw [List.nil_append, findNameMatch, if_pos hmatch]
  | cons p rest ih =>
    obtain ⟨a0, w0⟩ := p
    rw [List.cons_append, findNameMatch,
      if_neg (hpre (a0, w0) (List.mem_cons_self _ _))]
    exact ih fun q hq => hpre q (List.mem_cons_of_mem _ hq)

/-- C9: `remove_wallet` matches the identifier first as an exact address key
(removing that wallet even when the identifier equals another wallet's
display name), otherwise case-insensitively as a display name (removing the
matched wallet), fails with the not-found message leaving the database
untouched when neither matches, and persists the removal on every success. -/
theorem C9_remove_semantics (db : WalletDatabase) (uid ident now : String)
    (u : UserData) (hu : alookup uid db.users = some u) :
    (∀ w, alookup ident u.wallets = some w →
      remove_wallet db uid ident now =
        ((true, "✅ Removed *" ++ w.name ++ "*"),
         save_data { db with users := setUser db.users uid { u with wallets := eraseKey ident u.wallets } })) ∧
    (∀ a w, alookup ident u.wallets = none →
      findNameMatch ident u.wallets = some (a, w) →
      strLower w.name = strLower ident ∧
      remove_wallet db uid ident now =
        ((true, "✅ Removed *" ++ w.name ++ "*"),
         save_data { db with users := setUser db.users uid { u with wallets := eraseKey a u.wallets } })) ∧
    (alookup ident u.wallets = none → findNameMatch ident u.wallets = none →
      remove_wallet db uid ident now = ((false, "❌ Wallet not found"), db)) ∧
    ((remove_wallet db uid ident now).1.1 = true →
      (remove_wallet db uid ident now).2.disk_users =
        (remove_wallet db uid ident now).2.users) := by
  have hg : get_user db uid now = (u, db) := by
    unfold get_user
    rw [hu]
  refine ⟨?_, ?_, ?_, ?_⟩
  · intro w hw
    unfold remove_wallet
    rw [hg]
    dsimp only
    rw [hw]
  · intro a w hnone hname
    refine ⟨findNameMatch_prop ident u.wallets a w hname, ?_⟩
    unfold remove_wallet
    rw [hg]
    dsimp only
    rw [hnone, hname]
  · intro h1 h2
    unfold remove_wallet
    rw [hg]
    dsimp only
    rw [h1, h2]
  · intro hsucc
    unfold remove_wallet at hsucc ⊢
    rw [hg] at hsucc ⊢
    dsimp only at hsucc ⊢
    cases h1 : alookup ident u.wallets with
    | some w => rfl
    | none =>
      rw [h1] at hsucc
      cases h2 : findNameMatch ident u.wallets with
      | some aw => rfl
      | none =>
        rw [h2] at hsucc
        simp at hsucc

/-- Witness instantiating C9: identifier `beta` is simultaneously the address
of the wallet named `gamma` and the display name of another wallet; the
address match wins and the `gamma` wallet is the one removed. -/
theorem C9_remove_semantics_witness :
    remove_wallet dbRemove "3" "beta" "t" =
      ((true, "✅ Removed *" ++ wGamma.name ++ "*"),
       save_data { dbRemove with users := setUser dbRemove.users "3" { uRemove with wallets := eraseKey "beta" uRemove.wallets } }) :=
  (C9_remove_semantics dbRemove "3" "beta" "t" uRemove (by decide)).1 wGamma (by decide)

/-- C10: with several case-insensitively equal display names and no address
match, `remove_wallet` removes exactly the earliest-inserted matching wallet,
reports success with that wallet's name, and keeps every other wallet. -/
theorem C10_duplicate_name_removal (db : WalletDatabase) (uid ident now : String)
    (u : UserData) (ws1 ws2 : List (String × Wallet)) (a1 : String) (w1 : Wallet)
    (hu : alookup uid db.users = some u)
    (hsplit : u.wallets = ws1 ++ (a1, w1) :: ws2)
    (haddr : alookup ident u.wallets = none)
    (hpre : ∀ p ∈ ws1, strLower p.2.name ≠ strLower ident)
    (hmatch : strLower w1.name = strLower ident)
    (ha1 : a1 ∉ ws1.map Prod.fst) :
    remove_wallet db uid ident now =
      ((true, "✅ Removed *" ++ w1.name ++ "*"),
       save_data { db with users := setUser db.users uid { u with wallets := ws1 ++ ws2 } }) := by
  have hg : get_user db uid now = (u, db) := by
    unfold get_user
    rw [hu]
  have hname : findNameMatch ident u.wallets = some (a1, w1) := by
    rw [hsplit]
    exact findNameMatch_split ident ws1 ws2 a1 w1 hpre hmatch
  have herase : eraseKey a1 u.wallets = ws1 ++ ws2 := by
    rw [hsplit]
    exact eraseKey_append_not_mem ws1 ws2 a1 w1 ha1
  unfold remove_wallet
  rw [hg]
  dsimp only
  rw [haddr, hname]
  dsimp only
  rw [herase]

/-- Witness instantiating C10: of the two wallets named `Main` and `MAIN`,
removing `main` deletes the earlier `Main` wallet and keeps `MAIN` tracked. -/
theorem C10_duplicate_name_removal_witness :
    remove_wallet dbDupNames "5" "main" "t" =
      ((true, "✅ Removed *" ++ wMain.name ++ "*"),
       save_data { dbDupNames with users := setUser dbDupNames.users "5" { uDup with wallets := [] ++ [("Y", wMAIN)] } }) :=
  C10_duplicate_name_removal dbDupNames "5" "main" "t" uDup
    [] [("Y", wMAIN)] "X" wMain (by decide) rfl (by decide)
    (by intro p hp; cases hp) (by decide) (by simp)

/-- C8 counterexample: a non-200 response (here a 500 carrying a body) is a
failed fetch, yet `fetch_transactions` produces no log line for it — the
claim's "the failure is logged" is false at this input. -/
theorem C8_silent_non200_cex :
    fetchFails (FetchOutcome.success 500 [mkTx "sigX"]) = true ∧
    fetch_transactions (FetchOutcome.success 500 [mkTx "sigX"]) = ([], []) :=
  ⟨by decide, by decide⟩

/-- C8 amended: a failed fetch returns the empty sequence without raising —
a raised exception is logged as an `API Error` line while a non-200 response
is silent — and the poll cycle treats the failed address as a no-op: the
cycle on `ws1 ++ (a, w) :: ws2` equals the cycle on `ws1 ++ ws2` with the
failed wallet reinserted unchanged, so sibling addresses are processed
exactly as before and the failed address contributes no state mutation. -/
theorem C8_failed_fetch_amended (o : FetchOutcome) (uid now : String)
    (f : String → List Tx) (ws1 ws2 : List (String × Wallet)) (a : String)
    (w : Wallet) (cache : List (String × String)) (ac : Nat) (al : List Alert)
    (hfail : fetchFails o = true) (hf : f a = (fetch_transactions o).1) :
    (fetch_transactions o).1 = [] ∧
    (∀ e, o = FetchOutcome.excRaised e →
      (fetch_transactions o).2 = ["API Error: " ++ e]) ∧
    (∀ st body, o = FetchOutcome.success st body → (fetch_transactions o).2 = []) ∧
    cycleWallets uid now f (ws1 ++ (a, w) :: ws2) cache ac al =
      ((cycleWallets uid now f ws1 cache ac al).1 ++ (a, w) ::
        (cycleWallets uid now f ws2 (cycleWallets uid now f ws1 cache ac al).2.1
          (cycleWallets uid now f ws1 cache ac al).2.2.1
          (cycleWallets uid now f ws1 cache ac al).2.2.2).1,
       (cycleWallets uid now f ws2 (cycleWallets uid now f ws1 cache ac al).2.1
         (cycleWallets uid now f ws1 cache ac al).2.2.1
         (cycleWallets uid now f ws1 cache ac al).2.2.2).2) := by
  have hempty : (fetch_transactions o).1 = [] := by
    cases o with
    | success st body =>
      simp only [fetchFails, decide_eq_true_eq] at hfail
      simp [fetch_transactions, hfail]
    | excRaised e => rfl
  refine ⟨hempty, ?_, ?_, ?_⟩
  · intro e he
    subst he
    rfl
  · intro st body hb
    subst hb
    simp only [fetchFails, decide_eq_true_eq] at hfail
    simp [fetch_transactions, hfail]
  · have hfa : f a = [] := by rw [hf, hempty]
    rw [cw_append uid now f ws1 ((a, w) :: ws2) cache ac al, cycleWallets_cons, hfa,
      scanTxs_nil]

/-- Witness instantiating the amended C8: address `C` fails with a raised
timeout while siblings `A` and `B` succeed; the cycle over `A, C, B` equals
the cycle over `A, B` with `C`'s wallet reinserted untouched. -/
theorem C8_failed_fetch_amended_witness :
    (fetch_transactions (FetchOutcome.excRaised "Connection timeout")).1 = [] ∧
    (∀ e, FetchOutcome.excRaised "Connection timeout" = FetchOutcome.excRaised e →
      (fetch_transactions (FetchOutcome.excRaised "Connection timeout")).2 =
        ["API Error: " ++ e]) ∧
    (∀ st body, FetchOutcome.excRaised "Connection timeout" = FetchOutcome.success st body →
      (fetch_transactions (FetchOutcome.excRaised "Connection timeout")).2 = []) ∧
    cycleWallets "1" "t" fetchCFails ([("A", wX)] ++ ("C", wX) :: [("B", wX)]) [] 0 [] =
      ((cycleWallets "1" "t" fetchCFails [("A", wX)] [] 0 []).1 ++ ("C", wX) ::
        (cycleWallets "1" "t" fetchCFails [("B", wX)]
          (cycleWallets "1" "t" fetchCFails [("A", wX)] [] 0 []).2.1
          (cycleWallets "1" "t" fetchCFails [("A", wX)] [] 0 []).2.2.1
          (cycleWallets "1" "t" fetchCFails [("A", wX)] [] 0 []).2.2.2).1,
       (cycleWallets "1" "t" fetchCFails [("B", wX)]
         (cycleWallets "1" "t" fetchCFails [("A", wX)] [] 0 []).2.1
         (cycleWallets "1" "t" fetchCFails [("A", wX)] [] 0 []).2.2.1
         (cycleWallets "1" "t" fetchCFails [("A", wX)] [] 0 []).2.2.2).2) :=
  C8_failed_fetch_amended (FetchOutcome.excRaised "Connection timeout") "1" "t"
    fetchCFails [("A", wX)] [("B", wX)] "C" wX [] 0 [] (by decide) (by decide)

theorem autoSendLoop_ok3 (send : Nat → SendRes) (uid : String) (tr ar : Nat → String)
    (x1 x2 x3 : Alert) (hok : ∀ j, send j = SendRes.ok) :
    autoSendLoop send uid tr ar [x1, x2, x3] 0 =
      ([Ev.sent uid (format_alert tr ar x1.tx x1.name x1.addr), Ev.slept,
        Ev.sent uid (format_alert tr ar x2.tx x2.name x2.addr), Ev.slept,
        Ev.sent uid (format_alert tr ar x3.tx x3.name x3.addr), Ev.slept], false, 3) := by
  simp [autoSendLoop, hok]

set_option maxRecDepth 4000 in
/-- C3 counterexample: a scheduled monitor cycle with seven novel records for
one tenant sends exactly three individual notifications and no summary
notification at all — the claim's "exactly one summary notification ...
holds for the scheduled monitoring cycle" is false at this input. -/
theorem C3_scheduled_no_summary_cex :
    (commitCycle dbOne "1" "t" fetchSeven uA).2.length = 7 ∧
    countSent (autoUserStep tr0 ar0 fetchSeven sendOK "t" dbOne "1").2.1 = 3 ∧
    (autoUserStep tr0 ar0 fetchSeven sendOK "t" dbOne "1").2.1.any isSummaryMsg = false :=
  ⟨by decide, by decide, by decide⟩

/-- C3 amended: with n > 3 novel records, the manual `/check` dispatch sends
exactly three individual formatted notifications, each followed by the pacing
sleep, then exactly one summary notification reporting the remaining count;
the scheduled monitor cycle sends exactly the three individual notifications
with pacing and no summary notification. -/
theorem C3_cap_and_summary_amended (tr ar : Nat → String) (uid now : String)
    (a1 a2 a3 : Alert) (rest : List Alert) (db : WalletDatabase) (u : UserData)
    (fetch : String → List Tx) (send : String → Nat → SendRes)
    (hne : rest ≠ []) (hnum : pyIntOk uid = true)
    (hu : alookup uid db.users = some u)
    (halerts : (commitCycle db uid now fetch u).2 = a1 :: a2 :: a3 :: rest)
    (hok : ∀ j, send uid j = SendRes.ok) :
    sendAlerts tr ar uid (a1 :: a2 :: a3 :: rest) =
      [Ev.sent uid (format_alert tr ar a1.tx a1.name a1.addr), Ev.slept,
       Ev.sent uid (format_alert tr ar a2.tx a2.name a2.addr), Ev.slept,
       Ev.sent uid (format_alert tr ar a3.tx a3.name a3.addr), Ev.slept,
       Ev.sent uid ("📨 +" ++ Nat.repr rest.length ++ " more transactions...")] ∧
    autoUserStep tr ar fetch send now db uid =
      ((commitCycle db uid now fetch u).1,
       [Ev.sent uid (format_alert tr ar a1.tx a1.name a1.addr), Ev.slept,
        Ev.sent uid (format_alert tr ar a2.tx a2.name a2.addr), Ev.slept,
        Ev.sent uid (format_alert tr ar a3.tx a3.name a3.addr), Ev.slept],
       false) := by
  have hpos : 0 < rest.length := List.length_pos.mpr hne
  constructor
  · unfold sendAlerts
    rw [if_neg (by simp : ¬((a1 :: a2 :: a3 :: rest).isEmpty = true))]
    rw [if_pos (by simp only [List.length_cons]; omega : 3 < (a1 :: a2 :: a3 :: rest).length)]
    have harg : (a1 :: a2 :: a3 :: rest).length - 3 = rest.length := by
      simp only [List.length_cons]
      omega
    rw [harg]
    rfl
  · unfold autoUserStep
    rw [hnum]
    simp only [if_true, hu]
    have htake : ((commitCycle db uid now fetch u).2.take 3) = [a1, a2, a3] := by
      rw [halerts]
      rfl
    rw [halerts]
    simp only [List.isEmpty_cons, Bool.false_eq_true, if_false]
    rw [← halerts, htake, autoSendLoop_ok3 (send uid) uid tr ar a1 a2 a3 (hok)]
    rfl

set_option maxRecDepth 4000 in
/-- Witness instantiating the amended C3 at a concrete seven-record cycle:
three paced individual sends plus the `+4 more` summary on the manual path,
three paced individual sends and nothing else on the scheduled path. -/
theorem C3_cap_and_summary_amended_witness :
    sendAlerts tr0 ar0 "1" (alertOf "s1" :: alertOf "s2" :: alertOf "s3" ::
        [alertOf "s4", alertOf "s5", alertOf "s6", alertOf "s7"]) =
      [Ev.sent "1" (format_alert tr0 ar0 (alertOf "s1").tx (alertOf "s1").name (alertOf "s1").addr), Ev.slept,
       Ev.sent "1" (format_alert tr0 ar0 (alertOf "s2").tx (alertOf "s2").name (alertOf "s2").addr), Ev.slept,
       Ev.sent "1" (format_alert tr0 ar0 (alertOf "s3").tx (alertOf "s3").name (alertOf "s3").addr), Ev.slept,
       Ev.sent "1" ("📨 +" ++
         Nat.repr [alertOf "s4", alertOf "s5", alertOf "s6", alertOf "s7"].length ++
         " more transactions...")] ∧
    autoUserStep tr0 ar0 fetchSeven sendOK "t" dbOne "1" =
      ((commitCycle dbOne "1" "t" fetchSeven uA).1,
       [Ev.sent "1" (format_alert tr0 ar0 (alertOf "s1").tx (alertOf "s1").name (alertOf "s1").addr), Ev.slept,
        Ev.sent "1" (format_alert tr0 ar0 (alertOf "s2").tx (alertOf "s2").name (alertOf "s2").addr), Ev.slept,
        Ev.sent "1" (format_alert tr0 ar0 (alertOf "s3").tx (alertOf "s3").name (alertOf "s3").addr), Ev.slept],
       false) :=
  C3_cap_and_summary_amended tr0 ar0 "1" "t" (alertOf "s1") (alertOf "s2") (alertOf "s3")
    [alertOf "s4", alertOf "s5", alertOf "s6", alertOf "s7"] dbOne uA fetchSeven sendOK
    (by decide) (by decide) (by decide) (by decide) (fun j => rfl)

/-- C7 counterexample: the first scheduled-cycle send attempt fails with a
transient (non-blocked) error, yet nothing is logged and the loop goes on to
send the second alert — the claim's "the error is logged and all remaining
notifications for that tenant in that cycle are skipped" is false here. -/
theorem C7_transient_error_not_skipped_cex :
    autoSendLoop sendFlaky "7" tr0 ar0 [alertOf "x1", alertOf "x2"] 0 =
      ([Ev.sent "7" (format_alert tr0 ar0 (alertOf "x2").tx (alertOf "x2").name
          (alertOf "x2").addr), Ev.slept], false, 2) ∧
    countSent (autoSendLoop sendFlaky "7" tr0 ar0 [alertOf "x1", alertOf "x2"] 0).1 = 1 ∧
    (autoSendLoop sendFlaky "7" tr0 ar0 [alertOf "x1", alertOf "x2"] 0).1.any isLogged
      = false :=
  ⟨rfl, by decide, by decide⟩

/-- C7 amended: a delivery failure that is not of the unreachable class is
silently swallowed — nothing is logged, the pacing sleep of the failed
attempt is skipped, and the loop continues with the remaining notifications,
attempting every one of them (the attempt index advances past the whole
list and the tenant is not removed). -/
theorem C7_transient_error_amended (send : Nat → SendRes) (uid : String)
    (tr ar : Nat → String)
    (hnb : ∀ j m, send j = SendRes.err m → blockedClass m = false) :
    ∀ (alerts : List Alert) (i : Nat),
      (autoSendLoop send uid tr ar alerts i).2 = (false, i + alerts.length) ∧
      (autoSendLoop send uid tr ar alerts i).1.all (fun e => !(isLogged e)) = true := by
  intro alerts
  induction alerts with
  | nil =>
    intro i
    exact ⟨by simp [autoSendLoop], by simp [autoSendLoop]⟩
  | cons a rest ih =>
    intro i
    cases hs : send i with
    | ok =>
      constructor
      · simp only [autoSendLoop, hs]
        rw [(ih (i + 1)).1]
        have : i + 1 + rest.length = i + (a :: rest).length := by
          simp only [List.length_cons]
          omega
        rw [this]
      · simp only [autoSendLoop, hs, List.all_cons, isLogged, Bool.not_false,
          Bool.true_and]
        exact (ih (i + 1)).2
    | err m =>
      have hb := hnb i m hs
      constructor
      · simp only [autoSendLoop, hs, hb, Bool.false_eq_true, if_false]
        rw [(ih (i + 1)).1]
        have : i + 1 + rest.length = i + (a :: rest).length := by
          simp only [List.length_cons]
          omega
        rw [this]
      · simp only [autoSendLoop, hs, hb, Bool.false_eq_true, if_false]
        exact (ih (i + 1)).2

/-- Witness instantiating the amended C7: with every attempt failing on a
transient chat-not-found error, both pending alerts are attempted, the tenant
is not removed, and nothing is logged. -/
theorem C7_transient_error_amended_witness :
    (autoSendLoop sendChatGone "9" tr0 ar0 [alertOf "x1", alertOf "x2"] 0).2 =
      (false, 0 + [alertOf "x1", alertOf "x2"].length) ∧
    (autoSendLoop sendChatGone "9" tr0 ar0 [alertOf "x1", alertOf "x2"] 0).1.all
      (fun e => !(isLogged e)) = true :=
  C7_transient_error_amended sendChatGone "9" tr0 ar0
    (fun j m hm => by
      have h2 : SendRes.err "Bad Request: chat not found" = SendRes.err m := hm
      injection h2 with h3
      rw [← h3]
      decide)
    [alertOf "x1", alertOf "x2"] 0

theorem autoSendLoop_removed_ends (send : Nat → SendRes) (uid : String)
    (tr ar : Nat → String) :
    ∀ (alerts : List Alert) (i : Nat),
      (autoSendLoop send uid tr ar alerts i).2.1 = true →
      ∃ pre, (autoSendLoop send uid tr ar alerts i).1 =
        pre ++ [Ev.logged ("User " ++ uid ++ " blocked bot, removing...")] := by
  intro alerts
  induction alerts with
  | nil =>
    intro i h
    simp [autoSendLoop] at h
  | cons a rest ih =>
    intro i h
    cases hs : send i with
    | ok =>
      simp only [autoSendLoop, hs] at h ⊢
      obtain ⟨pre, hp⟩ := ih (i + 1) h
      refine ⟨Ev.sent uid (format_alert tr ar a.tx a.name a.addr) :: Ev.slept :: pre, ?_⟩
      rw [hp]
      rfl
    | err m =>
      by_cases hb : blockedClass m = true
      · simp only [autoSendLoop, hs, hb, if_true]
        exact ⟨[], rfl⟩
      · have hb2 : blockedClass m = false := by simpa using hb
        simp only [autoSendLoop, hs, hb2, Bool.false_eq_true, if_false] at h ⊢
        exact ih (i + 1) h

/-- C4: when a scheduled-cycle send for a tenant fails with an
unreachable-class (blocked/forbidden) error, the per-user step takes the
removal branch: the tenant's entry — with all its wallets — is deleted from
`db.users` and the deletion flushed to durable storage, the tenant's event
trace ends at the removal log line (no further send for it), and the monitor
pass stops right after this user, so no later send for this tenant can occur
in the cycle. -/
theorem C4_unreachable_deregisters (tr ar : Nat → String) (fetch : String → List Tx)
    (send : String → Nat → SendRes) (now : String) (db : WalletDatabase)
    (uid : String) (u : UserData) (rest : List String)
    (hnd : (db.users.map Prod.fst).Nodup)
    (hnum : pyIntOk uid = true)
    (hu : alookup uid db.users = some u)
    (hne : (commitCycle db uid now fetch u).2 ≠ [])
    (hrm : (autoSendLoop (send uid) uid tr ar
      ((commitCycle db uid now fetch u).2.take 3) 0).2.1 = true) :
    autoUserStep tr ar fetch send now db uid =
      (save_data { (commitCycle db uid now fetch u).1 with
         users := eraseKey uid (commitCycle db uid now fetch u).1.users },
       (autoSendLoop (send uid) uid tr ar
         ((commitCycle db uid now fetch u).2.take 3) 0).1,
       true) ∧
    alookup uid (autoUserStep tr ar fetch send now db uid).1.users = none ∧
    (autoUserStep tr ar fetch send now db uid).1.disk_users =
      (autoUserStep tr ar fetch send now db uid).1.users ∧
    (∃ pre, (autoUserStep tr ar fetch send now db uid).2.1 =
      pre ++ [Ev.logged ("User " ++ uid ++ " blocked bot, removing...")]) ∧
    monitorGo tr ar fetch send now (uid :: rest) db =
      ((autoUserStep tr ar fetch send now db uid).1,
       (autoUserStep tr ar fetch send now db uid).2.1 ++ [Ev.runtimeError]) := by
  have hie : (commitCycle db uid now fetch u).2.isEmpty = false := by
    cases hcc : (commitCycle db uid now fetch u).2 with
    | nil => exact absurd hcc hne
    | cons x xs => rfl
  have hstep : autoUserStep tr ar fetch send now db uid =
      (save_data { (commitCycle db uid now fetch u).1 with
         users := eraseKey uid (commitCycle db uid now fetch u).1.users },
       (autoSendLoop (send uid) uid tr ar
         ((commitCycle db uid now fetch u).2.take 3) 0).1,
       true) := by
    unfold autoUserStep
    rw [hnum]
    simp only [if_true, hu]
    simp only [hie, Bool.false_eq_true, if_false]
    simp only [hrm, if_true]
  refine ⟨hstep, ?_, ?_, ?_, ?_⟩
  · rw [hstep]
    apply alookup_eraseKey_self
    rw [commitCycle_users, setUser_map_fst_of_lookup db.users uid _ u hu]
    exact hnd
  · rw [hstep]
    rfl
  · rw [hstep]
    exact autoSendLoop_removed_ends (send uid) uid tr ar
      ((commitCycle db uid now fetch u).2.take 3) 0 hrm
  · rw [monitorGo, hstep]
    rfl

/-- Witness instantiating C4: user `1`'s recipient is blocked at the first
attempt; afterwards the user is gone from the store, the deletion is on
disk and the monitor pass ends in the iteration `RuntimeError`. -/
theorem C4_unreachable_deregisters_witness :
    alookup "1" (autoUserStep tr0 ar0 fetchOne sendBlocked "t" dbOne "1").1.users = none ∧
    (autoUserStep tr0 ar0 fetchOne sendBlocked "t" dbOne "1").1.disk_users =
      (autoUserStep tr0 ar0 fetchOne sendBlocked "t" dbOne "1").1.users ∧
    monitorGo tr0 ar0 fetchOne sendBlocked "t" ["1"] dbOne =
      ((autoUserStep tr0 ar0 fetchOne sendBlocked "t" dbOne "1").1,
       (autoUserStep tr0 ar0 fetchOne sendBlocked "t" dbOne "1").2.1 ++ [Ev.runtimeError]) := by
  obtain ⟨h1, h2, h3, h4, h5⟩ := C4_unreachable_deregisters tr0 ar0 fetchOne sendBlocked
    "t" dbOne "1" uA [] (by decide) (by decide) (by decide) (by decide) (by decide)
  exact ⟨h2, h3, h5⟩

set_option maxRecDepth 4000 in
/-- C5: evaluation of the failing scenario. Two users are registered and both
have a novel record pending; user `1`'s recipient is blocked, so the step
deletes `db.users["1"]` while the monitor's `for` loop is iterating over
`db.users.items()`, and CPython's dict iterator raises `RuntimeError` at the
next advance, outside the per-user try-block. User `2` is therefore never
processed: the whole pass emits only the removal log line and the
`RuntimeError`, no message is ever sent, user `2`'s novel record is not
recorded in the dedup cache, and user `2`'s state is untouched — contradicting
the claim that one tenant's failure never terminates the loop for the rest. -/
theorem C5_removal_aborts_monitor_loop :
    (auto_monitor tr0 ar0 fetchOne sendBlocked1 "t" dbTwo).2 =
      [Ev.logged "User 1 blocked bot, removing...", Ev.runtimeError] ∧
    hasKey (auto_monitor tr0 ar0 fetchOne sendBlocked1 "t" dbTwo).1.tx_cache
      (cacheKey "2" "B" "s") = false ∧
    alookup "2" (auto_monitor tr0 ar0 fetchOne sendBlocked1 "t" dbTwo).1.users = some uB ∧
    countSent (auto_monitor tr0 ar0 fetchOne sendBlocked1 "t" dbTwo).2 = 0 :=
  ⟨by decide, by decide, by decide, by decide⟩

theorem string_data_append (s t : String) : (s ++ t).data = s.data ++ t.data := by
  cases s
  cases t
  rfl

theorem marker_prefix_inj : ∀ (l1 l2 r1 r2 : List Char), '_' ∉ l1 → '_' ∉ l2 →
    l1 ++ '_' :: r1 = l2 ++ '_' :: r2 → l1 = l2 := by
  intro l1
  induction l1 with
  | nil =>
    intro l2 r1 r2 h1 h2 he
    cases l2 with
    | nil => rfl
    | cons c cs =>
      rw [List.nil_append, List.cons_append] at he
      injection he with hc _
      exact absurd (List.mem_cons.mpr (Or.inl hc)) h2
  | cons c cs ih =>
    intro l2 r1 r2 h1 h2 he
    cases l2 with
    | nil =>
      rw [List.cons_append, List.nil_append] at he
      injection he with hc _
      exact absurd (List.mem_cons.mpr (Or.inl hc.symm)) h1
    | cons d ds =>
      rw [List.cons_append, List.cons_append] at he
      injection he with hc htl
      have h1' : '_' ∉ cs := fun hm => h1 (List.mem_cons_of_mem _ hm)
      have h2' : '_' ∉ ds := fun hm => h2 (List.mem_cons_of_mem _ hm)
      rw [hc, ih ds r1 r2 h1' h2' htl]

theorem noUS_not_mem (s : String) (h : noUS s = true) : '_' ∉ s.data := by
  intro hm
  simp only [noUS, List.all_eq_true, decide_eq_true_eq] at h
  exact h '_' hm rfl

theorem cacheKey_data (u a s : String) :
    (cacheKey u a s).data = u.data ++ '_' :: (a.data ++ '_' :: s.data) := by
  show (u ++ "_" ++ a ++ "_" ++ s).data = _
  rw [string_data_append, string_data_append, string_data_append, string_data_append]
  simp

theorem cacheKey_tenant_inj (u1 u2 a1 a2 s1 s2 : String)
    (h1 : noUS u1 = true) (h2 : noUS u2 = true) (hne : u1 ≠ u2) :
    cacheKey u1 a1 s1 ≠ cacheKey u2 a2 s2 := by
  intro he
  apply hne
  have hd : (cacheKey u1 a1 s1).data = (cacheKey u2 a2 s2).data := by rw [he]
  rw [cacheKey_data, cacheKey_data] at hd
  have hdata := marker_prefix_inj u1.data u2.data _ _
    (noUS_not_mem u1 h1) (noUS_not_mem u2 h2) hd
  cases u1 with
  | mk d1 =>
    cases u2 with
    | mk d2 => exact congrArg String.mk hdata

theorem add_wallet_other (db : WalletDatabase) (u1 u2 a nm now : String)
    (hne : u1 ≠ u2) :
    alookup u2 (add_wallet db u1 a nm now).2.users = alookup u2 db.users := by
  have hg := get_user_users_other db u1 u2 now hne
  unfold add_wallet
  dsimp only
  split
  · exact hg
  · split
    · exact hg
    · show alookup u2 (setUser (get_user db u1 now).2.users u1 _) = _
      rw [alookup_setUser_ne _ u1 u2 _ hne]
      exact hg

theorem remove_wallet_other (db : WalletDatabase) (u1 u2 ident now : String)
    (hne : u1 ≠ u2) :
    alookup u2 (remove_wallet db u1 ident now).2.users = alookup u2 db.users := by
  have hg := get_user_users_other db u1 u2 now hne
  unfold remove_wallet
  dsimp only
  split
  · show alookup u2 (setUser (get_user db u1 now).2.users u1 _) = _
    rw [alookup_setUser_ne _ u1 u2 _ hne]
    exact hg
  · split
    · show alookup u2 (setUser (get_user db u1 now).2.users u1 _) = _
      rw [alookup_setUser_ne _ u1 u2 _ hne]
      exact hg
    · exact hg

theorem runCycle_users_other (db : WalletDatabase) (u1 u2 now : String)
    (f : String → List Tx) (hne : u1 ≠ u2) :
    alookup u2 (runCycle db u1 now f).1.users = alookup u2 db.users := by
  rw [runCycle_def, commitCycle_users, alookup_setUser_ne _ u1 u2 _ hne]
  exact get_user_users_other db u1 u2 now hne

theorem runCycle_cache_other (db : WalletDatabase) (u1 u2 now : String)
    (f : String → List Tx) (h1 : noUS u1 = true) (h2 : noUS u2 = true)
    (hne : u1 ≠ u2) :
    ∀ a s, hasKey (runCycle db u1 now f).1.tx_cache (cacheKey u2 a s)
      = hasKey db.tx_cache (cacheKey u2 a s) := by
  intro a s
  rw [runCycle_def, commitCycle_tx_cache,
    cw_other u1 now f _ _ _ _ _
      (fun a' s' => cacheKey_tenant_inj u2 u1 a a' s s' h2 h1 (fun hh => hne hh.symm)),
    get_user_tx_cache]

theorem runCycle_alerts_frame (dbA dbB : WalletDatabase) (u2 now2 : String)
    (f : String → List Tx)
    (hL : alookup u2 dbA.users = alookup u2 dbB.users)
    (hC : ∀ a s, hasKey dbA.tx_cache (cacheKey u2 a s)
      = hasKey dbB.tx_cache (cacheKey u2 a s)) :
    (runCycle dbA u2 now2 f).2 = (runCycle dbB u2 now2 f).2 := by
  rw [runCycle_def, runCycle_def, commitCycle_alerts, commitCycle_alerts]
  cases hB : alookup u2 dbB.users with
  | some u =>
    have hA : alookup u2 dbA.users = some u := by rw [hL, hB]
    have hgA : get_user dbA u2 now2 = (u, dbA) := by
      unfold get_user
      rw [hA]
    have hgB : get_user dbB u2 now2 = (u, dbB) := by
      unfold get_user
      rw [hB]
    rw [hgA, hgB]
    exact (cw_agree u2 now2 f u.wallets dbA.tx_cache dbB.tx_cache u.alert_count [] hC).2.2.1
  | none =>
    have hA : alookup u2 dbA.users = none := by rw [hL, hB]
    simp only [get_user, hA, hB]
    rfl

/-- C6: for two distinct tenants (whose ids, as decimal Telegram ids, contain
no underscore), every operation of one tenant — adding a wallet, removing a
wallet, running a poll cycle, or being deleted for a blocked recipient —
leaves the other tenant's stored record (wallets and counters) unchanged and
leaves every dedup key of the other tenant's namespace unchanged, even for an
identical address string; consequently a poll cycle of the other tenant
produces exactly the notifications it would have produced anyway. -/
theorem C6_tenant_isolation (db : WalletDatabase) (u1 u2 a nm ident now now2 : String)
    (f : String → List Tx) (hne : u1 ≠ u2)
    (h1 : noUS u1 = true) (h2 : noUS u2 = true) :
    alookup u2 (add_wallet db u1 a nm now).2.users = alookup u2 db.users ∧
    alookup u2 (remove_wallet db u1 ident now).2.users = alookup u2 db.users ∧
    alookup u2 (runCycle db u1 now f).1.users = alookup u2 db.users ∧
    (∀ a' s, hasKey (runCycle db u1 now f).1.tx_cache (cacheKey u2 a' s)
      = hasKey db.tx_cache (cacheKey u2 a' s)) ∧
    alookup u2 (eraseKey u1 db.users) = alookup u2 db.users ∧
    (runCycle (runCycle db u1 now f).1 u2 now2 f).2 = (runCycle db u2 now2 f).2 := by
  refine ⟨add_wallet_other db u1 u2 a nm now hne,
    remove_wallet_other db u1 u2 ident now hne,
    runCycle_users_other db u1 u2 now f hne,
    runCycle_cache_other db u1 u2 now f h1 h2 hne,
    alookup_eraseKey_ne db.users u1 u2 (fun hh => hne hh.symm),
    ?_⟩
  exact runCycle_alerts_frame (runCycle db u1 now f).1 db u2 now2 f
    (runCycle_users_other db u1 u2 now f hne)
    (runCycle_cache_other db u1 u2 now f h1 h2 hne)

/-- Witness instantiating C6: users `1` and `2` track the identical address
`A`; user `1`'s add, remove, cycle and deletion leave user `2`'s record,
dedup namespace and next-cycle notifications untouched. -/
theorem C6_tenant_isolation_witness :
    alookup "2" (add_wallet dbShared "1" "A2" "n" "t").2.users = alookup "2" dbShared.users ∧
    alookup "2" (remove_wallet dbShared "1" "W" "t").2.users = alookup "2" dbShared.users ∧
    alookup "2" (runCycle dbShared "1" "t" fetchOne).1.users = alookup "2" dbShared.users ∧
    (∀ a' s, hasKey (runCycle dbShared "1" "t" fetchOne).1.tx_cache (cacheKey "2" a' s)
      = hasKey dbShared.tx_cache (cacheKey "2" a' s)) ∧
    alookup "2" (eraseKey "1" dbShared.users) = alookup "2" dbShared.users ∧
    (runCycle (runCycle dbShared "1" "t" fetchOne).1 "2" "t2" fetchOne).2 =
      (runCycle dbShared "2" "t2" fetchOne).2 :=
  C6_tenant_isolation dbShared "1" "2" "A2" "n" "W" "t" "t2" fetchOne
    (by decide) (by decide) (by decide)
